import Mathlib

/-!
Verification of the Investo metrics engine.

Shallow embedding of the calculation modules (`src/lib/calculations`), the
price-cache policy (price-cache service), and the portfolio storage
operations (`src/lib/storage/portfolio.service.ts`).

Modelling conventions:
* JavaScript `number` values carrying money, shares and percentages are
  modelled as rationals (`ℚ`); the CAGR power lives in `ℝ` via `rpow`.
* Timestamps and dates (`Date.getTime()` values) are modelled as `ℤ`
  (milliseconds since the epoch); ISO strings that are only carried around
  are kept as `String`.
* JavaScript `Map` iteration order (insertion order) is modelled with
  association lists, and `Map.set` on an existing key keeps its position.
* The wall clock (`new Date()`, `Date.now()`) and the current US-Eastern
  civil time are injected as explicit parameters, as the spec's design
  notes direct for a deterministic reimplementation.
-/

namespace Investo

/-- ETF identity record (`ETF` in `src/types/portfolio.ts`). -/
structure ETF where
  symbol : String
  name : String
  exchange : Option String
  currency : String
deriving DecidableEq

/-- One buy transaction (`Purchase` in `src/types/portfolio.ts`);
`purchaseDate` is the epoch-ms value of `new Date(purchaseDate).getTime()`. -/
structure Purchase where
  id : String
  etfSymbol : String
  purchaseDate : ℤ
  shares : ℚ
  pricePerShare : ℚ
  totalCost : ℚ
  fees : ℚ
  notes : Option String
  createdAt : String
  updatedAt : String
deriving DecidableEq, Inhabited

/-- Cached ETF data (`ETFCacheEntry`); `lastUpdated` is epoch ms. -/
structure ETFCacheEntry where
  etf : ETF
  currentPrice : ℚ
  previousClose : ℚ
  lastUpdated : ℤ
  ytdStartPrice : ℚ
deriving DecidableEq

/-- `ETFCache`: record keyed by symbol, modelled as an association list. -/
abbrev ETFCache := List (String × ETFCacheEntry)

/-- A user's portfolio (`Portfolio` in `src/types/portfolio.ts`). -/
structure Portfolio where
  id : String
  name : String
  purchases : List Purchase
  etfCache : ETFCache
  createdAt : String
  updatedAt : String
  version : ℤ
deriving DecidableEq

/-- Current quote for an ETF (`ETFPriceData`). -/
structure ETFPriceData where
  symbol : String
  currentPrice : ℚ
  previousClose : ℚ
  change : ℚ
  changePercent : ℚ
  high52Week : ℚ
  low52Week : ℚ
  ytdChange : ℚ
deriving DecidableEq

/-- The symbol-to-quote `Map` passed to the calculators. -/
abbrev PriceMap := List (String × ETFPriceData)

/-- `Map.get` / record indexing on an association list. -/
def lookupMap {α : Type} (m : List (String × α)) (k : String) : Option α :=
  (m.find? (fun e => e.1 == k)).map (·.2)

/-- `CURRENT_SCHEMA_VERSION` from `src/lib/storage/keys`. -/
def CURRENT_SCHEMA_VERSION : ℤ := 1

/-! ### Numeric primitives (`src/lib/calculations/utils`) -/

/-- `calculateGainLoss`: current value minus cost basis. -/
def calculateGainLoss (costBasis currentValue : ℚ) : ℚ :=
  currentValue - costBasis

/-- `calculateGainLossPercent`: percent gain, 0 when the cost basis is 0. -/
def calculateGainLossPercent (costBasis currentValue : ℚ) : ℚ :=
  if costBasis = 0 then 0
  else (currentValue - costBasis) / costBasis * 100

/-- `calculateWeightedAverageCost`: total cost over total shares. -/
def calculateWeightedAverageCost (purchases : List Purchase) : ℚ :=
  if purchases = [] then 0
  else
    let totalShares := purchases.foldl (fun sum p => sum + p.shares) 0
    let totalCost := purchases.foldl (fun sum p => sum + p.totalCost) 0
    if totalShares = 0 then 0 else totalCost / totalShares

/-- `calculateAnnualizedReturn`: CAGR as a percent, with the source's edge
policy (`startValue <= 0 || days <= 0` gives 0, `endValue <= 0` gives -100);
the power `ratio ^ (1 / yearsHeld)` is `Real.rpow`. -/
noncomputable def calculateAnnualizedReturn (startValue endValue days : ℚ) : ℝ :=
  if startValue ≤ 0 ∨ days ≤ 0 then 0
  else if endValue ≤ 0 then -100
  else
    (((endValue / startValue : ℚ) : ℝ) ^ ((1 : ℝ) / ((days : ℝ) / 365)) - 1) * 100

/-- `calculatePortfolioWeight`: holding value as a percent of the total. -/
def calculatePortfolioWeight (holdingValue totalValue : ℚ) : ℚ :=
  if totalValue = 0 then 0 else holdingValue / totalValue * 100

/-! ### Date utilities (`src/lib/utils/date`) -/

/-- `getDaysBetween`: `Math.floor((end - start) / msPerDay)`; JavaScript's
`Math.floor` rounds towards minus infinity, hence `Int.fdiv`. -/
def getDaysBetween (startTime endTime : ℤ) : ℤ :=
  Int.fdiv (endTime - startTime) (1000 * 60 * 60 * 24)

/-- `isMarketOpen`, with the US-Eastern weekday (`getDay()`, 0 = Sunday) and
minutes past midnight injected: weekday and 9:30 ≤ t < 16:00. -/
def isMarketOpen (dayOfWeek minutesOfDay : ℕ) : Bool :=
  (decide (1 ≤ dayOfWeek) && decide (dayOfWeek ≤ 5)) &&
    (decide (9 * 60 + 30 ≤ minutesOfDay) && decide (minutesOfDay < 16 * 60))

/-! ### Purchase metrics (`calculatePurchaseMetrics`) -/

/-- Per-purchase view model (`PurchaseMetrics`). -/
structure PurchaseMetrics where
  purchaseId : String
  etfSymbol : String
  shares : ℚ
  costBasis : ℚ
  currentValue : ℚ
  gainLoss : ℚ
  gainLossPercent : ℚ
  holdingPeriodDays : ℤ
  annualizedReturn : ℝ

/-- `calculatePurchaseMetrics` with `new Date()` injected as `today`. -/
noncomputable def calculatePurchaseMetrics (purchase : Purchase) (currentPrice : ℚ)
    (today : ℤ) : PurchaseMetrics :=
  let costBasis := purchase.totalCost
  let currentValue := purchase.shares * currentPrice
  let holdingPeriodDays := getDaysBetween purchase.purchaseDate today
  { purchaseId := purchase.id
    etfSymbol := purchase.etfSymbol
    shares := purchase.shares
    costBasis := costBasis
    currentValue := currentValue
    gainLoss := calculateGainLoss costBasis currentValue
    gainLossPercent := calculateGainLossPercent costBasis currentValue
    holdingPeriodDays := holdingPeriodDays
    annualizedReturn :=
      calculateAnnualizedReturn costBasis currentValue (holdingPeriodDays : ℚ) }

/-! ### ETF holding aggregator (`calculateETFHoldingMetrics`) -/

/-- Aggregated per-symbol view model (`ETFHoldingMetrics`). -/
structure ETFHoldingMetrics where
  etfSymbol : String
  etfName : String
  totalShares : ℚ
  averageCostPerShare : ℚ
  totalCostBasis : ℚ
  currentPrice : ℚ
  currentValue : ℚ
  totalGainLoss : ℚ
  totalGainLossPercent : ℚ
  weightInPortfolio : ℚ
  purchases : List PurchaseMetrics

/-- `calculateETFHoldingMetrics`: aggregates all purchases of one symbol. -/
noncomputable def calculateETFHoldingMetrics (purchases : List Purchase)
    (etfName : String) (currentPrice totalPortfolioValue : ℚ)
    (today : ℤ) : ETFHoldingMetrics :=
  if purchases = [] then
    { etfSymbol := ""
      etfName := etfName
      totalShares := 0
      averageCostPerShare := 0
      totalCostBasis := 0
      currentPrice := currentPrice
      currentValue := 0
      totalGainLoss := 0
      totalGainLossPercent := 0
      weightInPortfolio := 0
      purchases := [] }
  else
    let etfSymbol := (purchases.headI).etfSymbol
    let totalShares := purchases.foldl (fun sum p => sum + p.shares) 0
    let totalCostBasis := purchases.foldl (fun sum p => sum + p.totalCost) 0
    let currentValue := totalShares * currentPrice
    { etfSymbol := etfSymbol
      etfName := etfName
      totalShares := totalShares
      averageCostPerShare := calculateWeightedAverageCost purchases
      totalCostBasis := totalCostBasis
      currentPrice := currentPrice
      currentValue := currentValue
      totalGainLoss := calculateGainLoss totalCostBasis currentValue
      totalGainLossPercent := calculateGainLossPercent totalCostBasis currentValue
      weightInPortfolio := calculatePortfolioWeight currentValue totalPortfolioValue
      purchases := purchases.map (fun p => calculatePurchaseMetrics p currentPrice today) }

/-! ### Grouping purchases by symbol

Both `calculateYTDPerformance` and `calculatePortfolioMetrics` build a
`Map<string, Purchase[]>` by pushing each purchase onto the list stored
under its symbol; a JavaScript `Map` keeps keys in first-insertion order
and `set` on an existing key keeps its position. -/

/-- One step of building `purchasesBySymbol`: append the purchase to its
symbol's group if present, else add a new group at the end. -/
def insertGrouped : List (String × List Purchase) → Purchase →
    List (String × List Purchase)
  | [], p => [(p.etfSymbol, [p])]
  | (s, g) :: rest, p =>
    if s = p.etfSymbol then (s, g ++ [p]) :: rest
    else (s, g) :: insertGrouped rest p

/-- The `purchasesBySymbol` map, in insertion order. -/
def groupBySymbol (purchases : List Purchase) : List (String × List Purchase) :=
  purchases.foldl insertGrouped []

/-! ### YTD performance calculator (`calculateYTDPerformance`) -/

/-- YTD result record (`YTDPerformance`). -/
structure YTDPerformance where
  ytdGainLoss : ℚ
  ytdGainLossPercent : ℚ
deriving DecidableEq

/-- The `ytdStartPrice` derivation inside the per-symbol loop:
`ytdChange !== 0 ? currentPrice / (1 + ytdChange / 100) : currentPrice`. -/
def ytdStartPriceOf (price : ETFPriceData) : ℚ :=
  if price.ytdChange ≠ 0 then price.currentPrice / (1 + price.ytdChange / 100)
  else price.currentPrice

/-- The inner per-purchase loop body of `calculateYTDPerformance`; the
accumulator is `(ytdGainLoss, valueAtYearStart, newInvestmentsThisYear)`. -/
def ytdFoldPurchase (currentPrice ytdStartPrice : ℚ) (yearStartTime : ℤ)
    (acc : ℚ × ℚ × ℚ) (purchase : Purchase) : ℚ × ℚ × ℚ :=
  let currentValue := purchase.shares * currentPrice
  if purchase.purchaseDate < yearStartTime then
    let valueAtStart := purchase.shares * ytdStartPrice
    (acc.1 + (currentValue - valueAtStart), acc.2.1 + valueAtStart, acc.2.2)
  else
    (acc.1 + (currentValue - purchase.totalCost), acc.2.1,
      acc.2.2 + purchase.totalCost)

/-- The per-symbol loop body: skip symbols with no quote, otherwise fold the
group's purchases with that symbol's price. -/
def ytdFoldGroup (priceData : PriceMap) (yearStartTime : ℤ)
    (acc : ℚ × ℚ × ℚ) (group : String × List Purchase) : ℚ × ℚ × ℚ :=
  match lookupMap priceData group.1 with
  | none => acc
  | some price =>
    group.2.foldl (ytdFoldPurchase price.currentPrice (ytdStartPriceOf price) yearStartTime) acc

/-- The three accumulators of `calculateYTDPerformance` after both loops. -/
def ytdAccumulate (purchases : List Purchase) (priceData : PriceMap)
    (yearStartTime : ℤ) : ℚ × ℚ × ℚ :=
  (groupBySymbol purchases).foldl (ytdFoldGroup priceData yearStartTime) (0, 0, 0)

/-- `calculateYTDPerformance` with `getYearStart().getTime()` injected. -/
def calculateYTDPerformance (purchases : List Purchase) (priceData : PriceMap)
    (yearStartTime : ℤ) : YTDPerformance :=
  let acc := ytdAccumulate purchases priceData yearStartTime
  let base := acc.2.1 + acc.2.2
  { ytdGainLoss := acc.1
    ytdGainLossPercent := if base > 0 then acc.1 / base * 100 else 0 }

/-! ### Portfolio metrics orchestrator (`calculatePortfolioMetrics`) -/

/-- Portfolio-level view model (`PortfolioMetrics`). -/
structure PortfolioMetrics where
  totalInvested : ℚ
  currentValue : ℚ
  totalGainLoss : ℚ
  totalGainLossPercent : ℚ
  ytdGainLoss : ℚ
  ytdGainLossPercent : ℚ
  holdings : List ETFHoldingMetrics
  lastUpdated : String

/-- First pass of the orchestrator: `totalCurrentValue` accumulated over the
symbol groups that have a quote. -/
def totalCurrentValueOf (groups : List (String × List Purchase))
    (priceData : PriceMap) : ℚ :=
  groups.foldl
    (fun acc group =>
      match lookupMap priceData group.1 with
      | none => acc
      | some price =>
        acc + (group.2.foldl (fun sum p => sum + p.shares) 0) * price.currentPrice)
    0

/-- The `cacheEntry?.etf?.name || symbol` display-name fallback (an empty
cached name is falsy and also falls back to the raw symbol). -/
def etfDisplayName (etfCache : ETFCache) (symbol : String) : String :=
  match lookupMap etfCache symbol with
  | none => symbol
  | some entry => if entry.etf.name = "" then symbol else entry.etf.name

/-- Second pass of the orchestrator: the `holdings` array in group order,
one entry per symbol that has a quote. -/
noncomputable def buildHoldings (groups : List (String × List Purchase))
    (priceData : PriceMap) (etfCache : ETFCache) (totalCurrentValue : ℚ)
    (today : ℤ) : List ETFHoldingMetrics :=
  groups.foldl
    (fun holdings group =>
      match lookupMap priceData group.1 with
      | none => holdings
      | some price =>
        holdings ++
          [calculateETFHoldingMetrics group.2 (etfDisplayName etfCache group.1)
            price.currentPrice totalCurrentValue today])
    []

/-- One step of the ECMAScript stable sort used on `holdings` with
comparator `(a, b) => b.currentValue - a.currentValue`: insert the element
before the first existing element it must precede, after every earlier
element of equal or greater value. -/
def insertByValueDesc (x : ETFHoldingMetrics) :
    List ETFHoldingMetrics → List ETFHoldingMetrics
  | [] => [x]
  | y :: ys =>
    if y.currentValue ≤ x.currentValue then x :: y :: ys
    else y :: insertByValueDesc x ys

/-- `holdings.sort((a, b) => b.currentValue - a.currentValue)`: a stable
sort descending by `currentValue`, as the ECMAScript specification of
`Array.prototype.sort` guarantees. -/
def sortByValueDesc (holdings : List ETFHoldingMetrics) : List ETFHoldingMetrics :=
  holdings.foldr insertByValueDesc []

/-- `calculatePortfolioMetrics`, with the year start, today's date and the
`lastUpdated` ISO string injected. -/
noncomputable def calculatePortfolioMetrics (portfolio : Portfolio)
    (priceData : PriceMap) (yearStartTime today : ℤ)
    (nowIso : String) : PortfolioMetrics :=
  if portfolio.purchases = [] then
    { totalInvested := 0
      currentValue := 0
      totalGainLoss := 0
      totalGainLossPercent := 0
      ytdGainLoss := 0
      ytdGainLossPercent := 0
      holdings := []
      lastUpdated := nowIso }
  else
    let groups := groupBySymbol portfolio.purchases
    let totalCurrentValue := totalCurrentValueOf groups priceData
    let holdings :=
      sortByValueDesc (buildHoldings groups priceData portfolio.etfCache totalCurrentValue today)
    let totalInvested := portfolio.purchases.foldl (fun sum p => sum + p.totalCost) 0
    let ytd := calculateYTDPerformance portfolio.purchases priceData yearStartTime
    { totalInvested := totalInvested
      currentValue := totalCurrentValue
      totalGainLoss := calculateGainLoss totalInvested totalCurrentValue
      totalGainLossPercent := calculateGainLossPercent totalInvested totalCurrentValue
      ytdGainLoss := ytd.ytdGainLoss
      ytdGainLossPercent := ytd.ytdGainLossPercent
      holdings := holdings
      lastUpdated := nowIso }

/-! ### Price cache policy (price-cache service)

The backing `localStorage` document is passed in explicitly as the cache
association list, and the current time (`Date.now()`) plus the current
US-Eastern weekday and minutes-of-day are injected. -/

/-- The `symbol.toUpperCase().trim()` normalization. -/
def normalizeSymbol (symbol : String) : String :=
  symbol.toUpper.trim

/-- `CACHE_TTL` constants, in milliseconds. -/
def CACHE_TTL_MARKET_HOURS : ℤ := 5 * 60 * 1000

/-- `CACHE_TTL.AFTER_HOURS`. -/
def CACHE_TTL_AFTER_HOURS : ℤ := 30 * 60 * 1000

/-- `CACHE_TTL.CLOSED`. -/
def CACHE_TTL_CLOSED : ℤ := 60 * 60 * 1000

/-- `getCurrentCacheTTL`: 5 min while the market is open, else 60 min on
Saturday/Sunday, else 30 min. The market-hours check (`isMarketOpen`) reads
the US-Eastern weekday and time, but the weekend branch reads
`new Date().getDay()` — the weekday in the runtime's local timezone — so
the two weekday arguments are distinct. -/
def getCurrentCacheTTL (easternDay easternMinutes localDay : ℕ) : ℤ :=
  if isMarketOpen easternDay easternMinutes then CACHE_TTL_MARKET_HOURS
  else if localDay = 0 ∨ localDay = 6 then CACHE_TTL_CLOSED
  else CACHE_TTL_AFTER_HOURS

/-- `getCachedPrice`: `null` when the symbol was never cached, otherwise the
cached price with `stale = (now - lastUpdated) > getCurrentCacheTTL()`. -/
def getCachedPrice (cache : ETFCache) (symbol : String) (now : ℤ)
    (easternDay easternMinutes localDay : ℕ) : Option (ℚ × Bool) :=
  match lookupMap cache (normalizeSymbol symbol) with
  | none => none
  | some entry =>
    some (entry.currentPrice,
      decide (now - entry.lastUpdated >
        getCurrentCacheTTL easternDay easternMinutes localDay))

/-- `isCacheStale`: `!cached || cached.stale`. -/
def isCacheStale (cache : ETFCache) (symbol : String) (now : ℤ)
    (easternDay easternMinutes localDay : ℕ) : Bool :=
  match getCachedPrice cache symbol now easternDay easternMinutes localDay with
  | none => true
  | some cached => cached.2

/-! ### Portfolio storage operations (`src/lib/storage/portfolio.service.ts`)

`savePortfolio` only persists the value these functions return, so the pure
model returns the updated portfolio; `generateId()` and
`new Date().toISOString()` are injected. -/

/-- Parsed form input (`PurchaseFormData`): the numeric fields are the
`parseFloat` results of the form strings (`none` models an unparsable fees
string, which `parseFloat(data.fees) || 0` turns into 0), and
`purchaseDate` is the parsed date in epoch ms. -/
structure PurchaseFormData where
  etfSymbol : String
  purchaseDate : ℤ
  shares : ℚ
  pricePerShare : ℚ
  fees : Option ℚ
  notes : Option String
deriving DecidableEq

/-- `addPurchase`: builds the new purchase, recomputing
`totalCost = shares * pricePerShare + fees`, and appends it. -/
def addPurchase (portfolio : Portfolio) (data : PurchaseFormData)
    (newId now : String) : Portfolio :=
  let shares := data.shares
  let pricePerShare := data.pricePerShare
  let fees := match data.fees with | some q => q | none => 0
  let purchase : Purchase :=
    { id := newId
      etfSymbol := data.etfSymbol.toUpper.trim
      purchaseDate := data.purchaseDate
      shares := shares
      pricePerShare := pricePerShare
      totalCost := shares * pricePerShare + fees
      fees := fees
      notes := data.notes
      createdAt := now
      updatedAt := now }
  { portfolio with
    purchases := portfolio.purchases ++ [purchase]
    updatedAt := now }

/-- The partial form data of `updatePurchase` (`Partial<PurchaseFormData>`):
`none` means the field was not provided. -/
structure PurchaseUpdateData where
  etfSymbol : Option String
  purchaseDate : Option ℤ
  shares : Option ℚ
  pricePerShare : Option ℚ
  fees : Option ℚ
  notes : Option (Option String)
deriving DecidableEq

/-- The rebuilt purchase inside `updatePurchase`: provided fields replace the
existing ones and `totalCost` is recomputed from the merged values. -/
def mergePurchase (existing : Purchase) (data : PurchaseUpdateData)
    (now : String) : Purchase :=
  let shares := match data.shares with | some q => q | none => existing.shares
  let pricePerShare :=
    match data.pricePerShare with | some q => q | none => existing.pricePerShare
  let fees := match data.fees with | some q => q | none => existing.fees
  { existing with
    etfSymbol :=
      match data.etfSymbol with
      | some s => s.toUpper.trim
      | none => existing.etfSymbol
    purchaseDate := (data.purchaseDate).getD existing.purchaseDate
    shares := shares
    pricePerShare := pricePerShare
    totalCost := shares * pricePerShare + fees
    fees := fees
    notes := (data.notes).getD existing.notes
    updatedAt := now }

/-- `updatePurchase`: throws when no purchase has the given id, otherwise
replaces that purchase in place with the merged, recomputed one. -/
def updatePurchase (portfolio : Portfolio) (id : String)
    (data : PurchaseUpdateData) (now : String) : Except String Portfolio :=
  match portfolio.purchases.findIdx? (fun p => p.id == id) with
  | none => Except.error ("Purchase with ID " ++ id ++ " not found")
  | some idx =>
    let updated := portfolio.purchases.mapIdx
      (fun i p => if i = idx then mergePurchase p data now else p)
    Except.ok { portfolio with purchases := updated, updatedAt := now }

/-! ### Import (`importPortfolio`)

The parsed JSON document is modelled structurally: a field the code checks
with `!x || typeof x !== 'string'` is a `JField` (absent or `null` or a
non-string value, or an actual string, where the empty string is falsy); a
field checked with `typeof x !== 'number'` is a `JNum`. -/

/-- A JSON field expected to hold a string: `absent` covers a missing or
`null`/falsy non-string value, `nonString` a present non-string value. -/
inductive JField where
  | absent : JField
  | str : String → JField
  | nonString : JField
deriving DecidableEq

/-- A JSON field expected to hold a number. -/
inductive JNum where
  | missing : JNum
  | num : ℚ → JNum
  | nonNumeric : JNum
deriving DecidableEq

/-- A purchase object inside the imported document. -/
structure JPurchase where
  id : JField
  etfSymbol : JField
  purchaseDate : Option String
  shares : JNum
  pricePerShare : JNum
  totalCost : Option ℚ
  fees : Option ℚ
  notes : Option String
  createdAt : Option String
  updatedAt : Option String
deriving DecidableEq

/-- The imported portfolio document after JSON parsing. -/
structure JPortfolioDoc where
  id : JField
  name : JField
  purchases : Option (List JPurchase)
  etfCache : Option ETFCache
  createdAt : Option String
  updatedAt : Option String
  version : Option ℤ
deriving DecidableEq

/-- The portfolio built by a successful import; the purchases are the
document's purchase objects with their timestamps ensured. -/
structure ImportedPortfolio where
  id : String
  name : String
  purchases : List JPurchase
  etfCache : ETFCache
  createdAt : String
  updatedAt : String
  version : ℤ
deriving DecidableEq

/-- The `!x || typeof x !== 'string'` rejection test on a string field:
true for absent, non-string, or empty (falsy) values. -/
def jfieldBad : JField → Bool
  | JField.absent => true
  | JField.nonString => true
  | JField.str s => s == ""

/-- The `typeof x !== 'number' || x <= 0` rejection test. -/
def jnumBad : JNum → Bool
  | JNum.missing => true
  | JNum.nonNumeric => true
  | JNum.num q => decide (q ≤ 0)

/-- The per-purchase validation loop of `importPortfolio`, returning the
first error message, if any. -/
def validatePurchases : List JPurchase → Except String Unit
  | [] => Except.ok ()
  | p :: rest =>
    if jfieldBad p.id then Except.error "Invalid purchase: missing or invalid id"
    else if jfieldBad p.etfSymbol then
      Except.error "Invalid purchase: missing or invalid etfSymbol"
    else if jnumBad p.shares then
      Except.error "Invalid purchase: shares must be a positive number"
    else if jnumBad p.pricePerShare then
      Except.error "Invalid purchase: pricePerShare must be a positive number"
    else validatePurchases rest

/-- The `{...p, createdAt: p.createdAt || now, updatedAt: p.updatedAt || now}`
timestamp backfill applied to every imported purchase (an empty string is
falsy and is also replaced). -/
def backfillTimestamps (now : String) (p : JPurchase) : JPurchase :=
  { p with
    createdAt := some (match p.createdAt with
      | some s => if s = "" then now else s
      | none => now)
    updatedAt := some (match p.updatedAt with
      | some s => if s = "" then now else s
      | none => now) }

/-- `importPortfolio` on an already-parsed document, with
`new Date().toISOString()` injected as `now`. -/
def importPortfolio (now : String) (data : JPortfolioDoc) :
    Except String ImportedPortfolio :=
  if jfieldBad data.id then
    Except.error "Invalid portfolio: missing or invalid id"
  else if jfieldBad data.name then
    Except.error "Invalid portfolio: missing or invalid name"
  else
    match data.purchases with
    | none => Except.error "Invalid portfolio: purchases must be an array"
    | some purchases =>
      match validatePurchases purchases with
      | Except.error e => Except.error e
      | Except.ok _ =>
        Except.ok
          { id := match data.id with | JField.str s => s | _ => ""
            name := match data.name with | JField.str s => s | _ => ""
            purchases := purchases.map (backfillTimestamps now)
            etfCache := (data.etfCache).getD []
            createdAt := (match data.createdAt with
              | some s => if s = "" then now else s
              | none => now)
            updatedAt := now
            version := CURRENT_SCHEMA_VERSION }

/-! ### Spec-side definitions

These follow the wording of the specification (and of the claims derived
from it), to be compared with the source-side definitions above. -/

/-- Spec 4.4: `ytdStartPrice = currentPrice / (1 + ytdChangePercent/100)`,
and `currentPrice` when the YTD change is exactly 0. -/
def specYtdStartPrice (price : ETFPriceData) : ℚ :=
  if price.ytdChange = 0 then price.currentPrice
  else price.currentPrice / (1 + price.ytdChange / 100)

/-- Spec 4.4: a single purchase's contribution to `ytdGainLoss` — zero when
its symbol has no quote, `shares*currentPrice - shares*ytdStartPrice` for a
purchase dated before the year start, `shares*currentPrice - totalCost`
for one bought this calendar year. -/
def ytdGainContrib (priceData : PriceMap) (yearStartTime : ℤ)
    (p : Purchase) : ℚ :=
  match lookupMap priceData p.etfSymbol with
  | none => 0
  | some price =>
    if p.purchaseDate < yearStartTime then
      p.shares * price.currentPrice - p.shares * specYtdStartPrice price
    else p.shares * price.currentPrice - p.totalCost

/-- Spec 4.4: a single purchase's contribution to `valueAtYearStart`. -/
def ytdValueAtStartContrib (priceData : PriceMap) (yearStartTime : ℤ)
    (p : Purchase) : ℚ :=
  match lookupMap priceData p.etfSymbol with
  | none => 0
  | some price =>
    if p.purchaseDate < yearStartTime then p.shares * specYtdStartPrice price
    else 0

/-- Spec 4.4: a single purchase's contribution to `newInvestmentsThisYear`. -/
def ytdNewInvestContrib (priceData : PriceMap) (yearStartTime : ℤ)
    (p : Purchase) : ℚ :=
  match lookupMap priceData p.etfSymbol with
  | none => 0
  | some _ =>
    if p.purchaseDate < yearStartTime then 0 else p.totalCost

/-- Spec 4.5: a purchase's contribution to `totalCurrentValue` — its shares
times its symbol's current price, zero without a quote. -/
def currentValueContrib (priceData : PriceMap) (p : Purchase) : ℚ :=
  match lookupMap priceData p.etfSymbol with
  | none => 0
  | some price => p.shares * price.currentPrice

/-- Claim C5 as frozen: the TTL rule read entirely in US-Eastern time — 5
minutes on an Eastern weekday with the Eastern time in [09:30, 16:00), 60
minutes on an Eastern Saturday or Sunday, 30 minutes on an Eastern weekday
outside market hours, in milliseconds. -/
def specCacheTTL (dayOfWeek minutesOfDay : ℕ) : ℤ :=
  if 1 ≤ dayOfWeek ∧ dayOfWeek ≤ 5 then
    if 9 * 60 + 30 ≤ minutesOfDay ∧ minutesOfDay < 16 * 60 then 5 * 60 * 1000
    else 30 * 60 * 1000
  else 60 * 60 * 1000

/-- Claim C5 (amended): 5 minutes when the US-Eastern time is a weekday
with the time in [09:30, 16:00); otherwise 60 minutes when the local-time
weekday is Saturday or Sunday; otherwise 30 minutes, in milliseconds. -/
def specCacheTTLAmended (easternDay easternMinutes localDay : ℕ) : ℤ :=
  if (1 ≤ easternDay ∧ easternDay ≤ 5) ∧
      (9 * 60 + 30 ≤ easternMinutes ∧ easternMinutes < 16 * 60) then
    5 * 60 * 1000
  else if localDay = 0 ∨ localDay = 6 then 60 * 60 * 1000
  else 30 * 60 * 1000

/-- The first-appearance order of a list of symbols (the key order of a
JavaScript `Map` built by repeated `set`), starting from `acc`. -/
def firstOccurFrom (acc : List String) : List String → List String
  | [] => acc
  | s :: rest => firstOccurFrom (if s ∈ acc then acc else acc ++ [s]) rest

/-- The order in which distinct symbols first appear in the input. -/
def firstOccur (symbols : List String) : List String :=
  firstOccurFrom [] symbols

/-- Claim C8 (amended): a string field is invalid when it is absent, not a
string, or the empty string. -/
def specFieldInvalid : JField → Bool
  | JField.absent => true
  | JField.nonString => true
  | JField.str s => s == ""

/-- Claim C8 (amended): a numeric field is invalid when it is missing,
non-numeric, or not positive. -/
def specNumInvalid : JNum → Bool
  | JNum.missing => true
  | JNum.nonNumeric => true
  | JNum.num q => decide (q ≤ 0)

/-- Claim C8 (amended): the import-rejection condition — invalid `id` or
`name`, `purchases` not a list, or some purchase with an invalid `id`,
`etfSymbol`, `shares` or `pricePerShare`. -/
def specImportRejects (data : JPortfolioDoc) : Bool :=
  specFieldInvalid data.id || specFieldInvalid data.name ||
    (match data.purchases with
     | none => true
     | some purchases =>
       purchases.any (fun p =>
         specFieldInvalid p.id || specFieldInvalid p.etfSymbol ||
           specNumInvalid p.shares || specNumInvalid p.pricePerShare))

/-- Claim C8 as frozen: "missing (or not a string)" read literally, so a
present empty string is not a rejection cause. -/
def claimFieldInvalid : JField → Bool
  | JField.absent => true
  | JField.nonString => true
  | JField.str _ => false

/-- Claim C8 as frozen: the rejection condition with "missing or not a
string" read literally for the string fields. -/
def claimImportRejects (data : JPortfolioDoc) : Bool :=
  claimFieldInvalid data.id || claimFieldInvalid data.name ||
    (match data.purchases with
     | none => true
     | some purchases =>
       purchases.any (fun p =>
         claimFieldInvalid p.id || claimFieldInvalid p.etfSymbol ||
           specNumInvalid p.shares || specNumInvalid p.pricePerShare))

/-! ### Helper lemmas: folds, sums, and the symbol grouping -/

lemma foldl_add_eq {α : Type} (f : α → ℚ) (l : List α) : ∀ init : ℚ,
    l.foldl (fun s x => s + f x) init = init + (l.map f).sum := by
  induction l with
  | nil => intro init; simp
  | cons x t ih =>
    intro init
    rw [List.foldl_cons, ih (init + f x), List.map_cons, List.sum_cons]
    ring

lemma sum_map_sub {α : Type} (f g : α → ℚ) (l : List α) :
    (l.map (fun x => f x - g x)).sum = (l.map f).sum - (l.map g).sum := by
  induction l with
  | nil => simp
  | cons x t ih => simp [ih]; ring

lemma sum_map_mul_const {α : Type} (f : α → ℚ) (c : ℚ) (l : List α) :
    (l.map (fun x => f x * c)).sum = (l.map f).sum * c := by
  induction l with
  | nil => simp
  | cons x t ih => simp [ih]; ring

/-- The per-group sums of a purchase function, over a group list. -/
def groupSum (f : Purchase → ℚ) (gs : List (String × List Purchase)) : ℚ :=
  (gs.map (fun g => (g.2.map f).sum)).sum

lemma groupSum_insertGrouped (f : Purchase → ℚ) (p : Purchase) :
    ∀ acc, groupSum f (insertGrouped acc p) = groupSum f acc + f p := by
  intro acc
  induction acc with
  | nil => simp [insertGrouped, groupSum]
  | cons hd rest ih =>
    obtain ⟨s, gl⟩ := hd
    by_cases h : s = p.etfSymbol
    · simp only [insertGrouped, if_pos h, groupSum, List.map_cons, List.sum_cons,
        List.map_append, List.sum_append]
      simp; ring
    · simp only [insertGrouped, if_neg h, groupSum, List.map_cons, List.sum_cons] at *
      rw [ih]; ring

lemma groupSum_foldl (f : Purchase → ℚ) (ps : List Purchase) :
    ∀ acc, groupSum f (ps.foldl insertGrouped acc)
      = groupSum f acc + (ps.map f).sum := by
  induction ps with
  | nil => intro acc; simp
  | cons p t ih =>
    intro acc
    rw [List.foldl_cons, ih (insertGrouped acc p), groupSum_insertGrouped,
      List.map_cons, List.sum_cons]
    ring

lemma groupSum_groupBySymbol (f : Purchase → ℚ) (ps : List Purchase) :
    groupSum f (groupBySymbol ps) = (ps.map f).sum := by
  have h := groupSum_foldl f ps []
  simpa [groupBySymbol, groupSum] using h

/-- Every member of every group carries the group's key symbol. -/
def GroupsWF (gs : List (String × List Purchase)) : Prop :=
  ∀ g ∈ gs, ∀ p ∈ g.2, p.etfSymbol = g.1

lemma groupsWF_insertGrouped {acc : List (String × List Purchase)} {p : Purchase}
    (h : GroupsWF acc) : GroupsWF (insertGrouped acc p) := by
  induction acc with
  | nil =>
    intro g hg q hq
    simp [insertGrouped] at hg
    subst hg
    simp at hq
    subst hq; rfl
  | cons hd rest ih =>
    obtain ⟨s, gl⟩ := hd
    have hhd : ∀ q ∈ gl, q.etfSymbol = s := fun q hq => h (s, gl) (by simp) q hq
    have hrest : GroupsWF rest := fun g hg q hq => h g (by simp [hg]) q hq
    by_cases hs : s = p.etfSymbol
    · intro g hg q hq
      simp only [insertGrouped, if_pos hs] at hg
      rcases List.mem_cons.mp hg with hg | hg
      · subst hg
        simp only at hq
        rcases List.mem_append.mp hq with hq | hq
        · exact hhd q hq
        · simp at hq; subst hq; exact hs.symm
      · exact hrest g hg q hq
    · intro g hg q hq
      simp only [insertGrouped, if_neg hs] at hg
      rcases List.mem_cons.mp hg with hg | hg
      · subst hg; exact hhd q hq
      · exact ih hrest g hg q hq

lemma groupsWF_groupBySymbol (ps : List Purchase) : GroupsWF (groupBySymbol ps) := by
  have main : ∀ (l : List Purchase) (acc : List (String × List Purchase)),
      GroupsWF acc → GroupsWF (l.foldl insertGrouped acc) := by
    intro l
    induction l with
    | nil => intro acc h; simpa using h
    | cons p t ih =>
      intro acc h
      rw [List.foldl_cons]
      exact ih _ (groupsWF_insertGrouped h)
  exact main ps [] (fun g hg => by simp at hg)

/-- Every group produced by the grouping is non-empty. -/
def GroupsNE (gs : List (String × List Purchase)) : Prop :=
  ∀ g ∈ gs, g.2 ≠ []

lemma groupsNE_insertGrouped {acc : List (String × List Purchase)} {p : Purchase}
    (h : GroupsNE acc) : GroupsNE (insertGrouped acc p) := by
  induction acc with
  | nil =>
    intro g hg
    simp [insertGrouped] at hg
    subst hg; simp
  | cons hd rest ih =>
    obtain ⟨s, gl⟩ := hd
    have hhd : gl ≠ [] := h (s, gl) (by simp)
    have hrest : GroupsNE rest := fun g hg => h g (by simp [hg])
    by_cases hs : s = p.etfSymbol
    · intro g hg
      simp only [insertGrouped, if_pos hs] at hg
      rcases List.mem_cons.mp hg with hg | hg
      · subst hg; simp
      · exact hrest g hg
    · intro g hg
      simp only [insertGrouped, if_neg hs] at hg
      rcases List.mem_cons.mp hg with hg | hg
      · subst hg; exact hhd
      · exact ih hrest g hg

lemma groupsNE_groupBySymbol (ps : List Purchase) : GroupsNE (groupBySymbol ps) := by
  have main : ∀ (l : List Purchase) (acc : List (String × List Purchase)),
      GroupsNE acc → GroupsNE (l.foldl insertGrouped acc) := by
    intro l
    induction l with
    | nil => intro acc h; simpa using h
    | cons p t ih =>
      intro acc h
      rw [List.foldl_cons]
      exact ih _ (groupsNE_insertGrouped h)
  exact main ps [] (fun g hg => by simp at hg)

/-! ### Lemmas about the YTD calculator -/

lemma specYtdStartPrice_eq (price : ETFPriceData) :
    specYtdStartPrice price = ytdStartPriceOf price := by
  unfold specYtdStartPrice ytdStartPriceOf
  rcases eq_or_ne price.ytdChange 0 with h | h
  · simp [h]
  · simp [h]

lemma ytdFoldPurchase_foldl (cp sp : ℚ) (ys : ℤ) (l : List Purchase) :
    ∀ acc : ℚ × ℚ × ℚ,
      l.foldl (ytdFoldPurchase cp sp ys) acc =
        (acc.1 + (l.map (fun p =>
            if p.purchaseDate < ys then p.shares * cp - p.shares * sp
            else p.shares * cp - p.totalCost)).sum,
         acc.2.1 + (l.map (fun p =>
            if p.purchaseDate < ys then p.shares * sp else 0)).sum,
         acc.2.2 + (l.map (fun p =>
            if p.purchaseDate < ys then 0 else p.totalCost)).sum) := by
  induction l with
  | nil => intro acc; simp
  | cons p t ih =>
    intro acc
    rw [List.foldl_cons, ih]
    by_cases h : p.purchaseDate < ys
    · simp only [ytdFoldPurchase, if_pos h, List.map_cons, List.sum_cons]
      refine Prod.ext ?_ (Prod.ext ?_ ?_) <;> simp <;> ring
    · simp only [ytdFoldPurchase, if_neg h, List.map_cons, List.sum_cons]
      refine Prod.ext ?_ (Prod.ext ?_ ?_) <;> simp <;> ring

lemma ytdFoldGroup_foldl (priceData : PriceMap) (ys : ℤ)
    (gs : List (String × List Purchase)) (hwf : GroupsWF gs) :
    ∀ acc : ℚ × ℚ × ℚ,
      gs.foldl (ytdFoldGroup priceData ys) acc =
        (acc.1 + groupSum (ytdGainContrib priceData ys) gs,
         acc.2.1 + groupSum (ytdValueAtStartContrib priceData ys) gs,
         acc.2.2 + groupSum (ytdNewInvestContrib priceData ys) gs) := by
  induction gs with
  | nil => intro acc; simp [groupSum]
  | cons g rest ih =>
    have hg : ∀ p ∈ g.2, p.etfSymbol = g.1 := hwf g (by simp)
    have hrest : GroupsWF rest := fun h hh q hq => hwf h (by simp [hh]) q hq
    intro acc
    rw [List.foldl_cons, ih hrest]
    simp only [groupSum, List.map_cons, List.sum_cons]
    rcases hl : lookupMap priceData g.1 with _ | price
    · have hzero : ∀ f : ETFPriceData → Purchase → ℚ,
          (g.2.map (fun p =>
            match lookupMap priceData p.etfSymbol with
            | none => 0
            | some price => f price p)).sum = 0 := by
        intro f
        have : ∀ p ∈ g.2, (match lookupMap priceData p.etfSymbol with
            | none => (0 : ℚ)
            | some price => f price p) = 0 := by
          intro p hp
          rw [hg p hp, hl]
        rw [List.map_congr_left this]
        simp
      simp only [ytdFoldGroup, hl]
      rw [show (g.2.map (ytdGainContrib priceData ys)).sum = 0 from hzero _,
        show (g.2.map (ytdValueAtStartContrib priceData ys)).sum = 0 from hzero _,
        show (g.2.map (ytdNewInvestContrib priceData ys)).sum = 0 from hzero _]
      refine Prod.ext ?_ (Prod.ext ?_ ?_) <;> simp
    · simp only [ytdFoldGroup, hl]
      rw [ytdFoldPurchase_foldl]
      have hgain : g.2.map (fun p =>
          if p.purchaseDate < ys then
            p.shares * price.currentPrice - p.shares * ytdStartPriceOf price
          else p.shares * price.currentPrice - p.totalCost)
          = g.2.map (ytdGainContrib priceData ys) := by
        refine List.map_congr_left ?_
        intro p hp
        unfold ytdGainContrib
        rw [hg p hp, hl]
        simp [specYtdStartPrice_eq]
      have hvys : g.2.map (fun p =>
          if p.purchaseDate < ys then p.shares * ytdStartPriceOf price else 0)
          = g.2.map (ytdValueAtStartContrib priceData ys) := by
        refine List.map_congr_left ?_
        intro p hp
        unfold ytdValueAtStartContrib
        rw [hg p hp, hl]
        simp [specYtdStartPrice_eq]
      have hnew : g.2.map (fun p =>
          if p.purchaseDate < ys then 0 else p.totalCost)
          = g.2.map (ytdNewInvestContrib priceData ys) := by
        refine List.map_congr_left ?_
        intro p hp
        unfold ytdNewInvestContrib
        rw [hg p hp, hl]
      rw [hgain, hvys, hnew]
      refine Prod.ext ?_ (Prod.ext ?_ ?_) <;> simp <;> ring

lemma ytdAccumulate_eq (ps : List Purchase) (priceData : PriceMap) (ys : ℤ) :
    ytdAccumulate ps priceData ys =
      ((ps.map (ytdGainContrib priceData ys)).sum,
       (ps.map (ytdValueAtStartContrib priceData ys)).sum,
       (ps.map (ytdNewInvestContrib priceData ys)).sum) := by
  unfold ytdAccumulate
  rw [ytdFoldGroup_foldl priceData ys _ (groupsWF_groupBySymbol ps)]
  simp [groupSum_groupBySymbol]

/-! ### Lemmas about group keys, holdings and the stable sort -/

lemma insertGrouped_keys (acc : List (String × List Purchase)) (p : Purchase) :
    (insertGrouped acc p).map (·.1) =
      if p.etfSymbol ∈ acc.map (·.1) then acc.map (·.1)
      else acc.map (·.1) ++ [p.etfSymbol] := by
  induction acc with
  | nil => simp [insertGrouped]
  | cons hd rest ih =>
    obtain ⟨s, gl⟩ := hd
    by_cases hs : s = p.etfSymbol
    · subst hs
      simp [insertGrouped]
    · simp only [insertGrouped, if_neg hs, List.map_cons, ih]
      by_cases hmem : p.etfSymbol ∈ rest.map (·.1)
      · simp [hmem]
      · simp [hmem, Ne.symm hs]

lemma groupKeys_foldl (ps : List Purchase) : ∀ acc,
    (ps.foldl insertGrouped acc).map (·.1) =
      firstOccurFrom (acc.map (·.1)) (ps.map (·.etfSymbol)) := by
  induction ps with
  | nil => intro acc; simp [firstOccurFrom]
  | cons p t ih =>
    intro acc
    rw [List.foldl_cons, ih, List.map_cons, insertGrouped_keys]
    rfl

lemma groupBySymbol_keys (ps : List Purchase) :
    (groupBySymbol ps).map (·.1) = firstOccur (ps.map (·.etfSymbol)) := by
  have h := groupKeys_foldl ps []
  simpa [groupBySymbol, firstOccur] using h

lemma buildHoldings_eq_filterMap (gs : List (String × List Purchase))
    (priceData : PriceMap) (etfCache : ETFCache) (tv : ℚ) (today : ℤ) :
    buildHoldings gs priceData etfCache tv today =
      gs.filterMap (fun g => (lookupMap priceData g.1).map (fun price =>
        calculateETFHoldingMetrics g.2 (etfDisplayName etfCache g.1)
          price.currentPrice tv today)) := by
  have main : ∀ (l : List (String × List Purchase)) (init : List ETFHoldingMetrics),
      l.foldl
        (fun holdings group =>
          match lookupMap priceData group.1 with
          | none => holdings
          | some price =>
            holdings ++
              [calculateETFHoldingMetrics group.2 (etfDisplayName etfCache group.1)
                price.currentPrice tv today])
        init
        = init ++ l.filterMap (fun g => (lookupMap priceData g.1).map (fun price =>
            calculateETFHoldingMetrics g.2 (etfDisplayName etfCache g.1)
              price.currentPrice tv today)) := by
    intro l
    induction l with
    | nil => intro init; simp
    | cons g rest ih =>
      intro init
      rw [List.foldl_cons]
      rcases hl : lookupMap priceData g.1 with _ | price
      · simp only [hl, List.filterMap_cons, ih]
        simp
      · simp only [hl, List.filterMap_cons, ih]
        simp
  simpa [buildHoldings] using main gs []

lemma holdingMetrics_etfSymbol {l : List Purchase} {s : String}
    (hne : l ≠ []) (hall : ∀ p ∈ l, p.etfSymbol = s)
    (etfName : String) (cp tv : ℚ) (today : ℤ) :
    (calculateETFHoldingMetrics l etfName cp tv today).etfSymbol = s := by
  cases l with
  | nil => exact absurd rfl hne
  | cons p t =>
    simp only [calculateETFHoldingMetrics, if_neg (by simp : ¬(p :: t = []))]
    simpa using hall p (by simp)

lemma buildHoldings_symbols (gs : List (String × List Purchase))
    (priceData : PriceMap) (etfCache : ETFCache) (tv : ℚ) (today : ℤ)
    (hwf : GroupsWF gs) (hne : GroupsNE gs) :
    (buildHoldings gs priceData etfCache tv today).map (·.etfSymbol) =
      (gs.map (·.1)).filter (fun s => (lookupMap priceData s).isSome) := by
  rw [buildHoldings_eq_filterMap]
  induction gs with
  | nil => simp
  | cons g rest ih =>
    have hgwf : ∀ p ∈ g.2, p.etfSymbol = g.1 := hwf g (by simp)
    have hgne : g.2 ≠ [] := hne g (by simp)
    have hrestwf : GroupsWF rest := fun h hh q hq => hwf h (by simp [hh]) q hq
    have hrestne : GroupsNE rest := fun h hh => hne h (by simp [hh])
    rcases hl : lookupMap priceData g.1 with _ | price
    · rw [List.filterMap_cons, hl]
      simp only [List.map_cons, List.filter_cons, hl]
      simp only [Option.map_none', Option.isSome_none]
      simp [ih hrestwf hrestne]
    · rw [List.filterMap_cons, hl]
      simp only [List.map_cons, List.filter_cons, hl]
      simp only [Option.map_some', Option.isSome_some]
      simp only [List.map_cons, if_pos]
      rw [holdingMetrics_etfSymbol hgne hgwf]
      simp [ih hrestwf hrestne]

lemma mem_insertByValueDesc {x z : ETFHoldingMetrics} :
    ∀ {l : List ETFHoldingMetrics}, z ∈ insertByValueDesc x l → z = x ∨ z ∈ l := by
  intro l
  induction l with
  | nil => intro h; simp [insertByValueDesc] at h; exact Or.inl h
  | cons y ys ih =>
    intro h
    by_cases hc : y.currentValue ≤ x.currentValue
    · rw [insertByValueDesc, if_pos hc] at h
      rcases List.mem_cons.mp h with h | h
      · exact Or.inl h
      · exact Or.inr h
    · rw [insertByValueDesc, if_neg hc] at h
      rcases List.mem_cons.mp h with h | h
      · exact Or.inr (by simp [h])
      · rcases ih h with h | h
        · exact Or.inl h
        · exact Or.inr (by simp [h])

lemma insertByValueDesc_pairwise {x : ETFHoldingMetrics}
    {l : List ETFHoldingMetrics}
    (h : l.Pairwise (fun a b => b.currentValue ≤ a.currentValue)) :
    (insertByValueDesc x l).Pairwise
      (fun a b => b.currentValue ≤ a.currentValue) := by
  induction l with
  | nil => simp [insertByValueDesc]
  | cons y ys ih =>
    rcases List.pairwise_cons.mp h with ⟨hy, hys⟩
    by_cases hc : y.currentValue ≤ x.currentValue
    · rw [insertByValueDesc, if_pos hc]
      refine List.pairwise_cons.mpr ⟨?_, h⟩
      intro z hz
      rcases List.mem_cons.mp hz with hz | hz
      · subst hz; exact hc
      · exact le_trans (hy z hz) hc
    · rw [insertByValueDesc, if_neg hc]
      refine List.pairwise_cons.mpr ⟨?_, ih hys⟩
      intro z hz
      rcases mem_insertByValueDesc hz with hz | hz
      · subst hz; exact le_of_lt (lt_of_not_le hc)
      · exact hy z hz

lemma sortByValueDesc_pairwise (l : List ETFHoldingMetrics) :
    (sortByValueDesc l).Pairwise
      (fun a b => b.currentValue ≤ a.currentValue) := by
  induction l with
  | nil => simp [sortByValueDesc]
  | cons x t ih =>
    rw [sortByValueDesc, List.foldr_cons]
    exact insertByValueDesc_pairwise ih

lemma filter_insertByValueDesc (x : ETFHoldingMetrics)
    (l : List ETFHoldingMetrics) (v : ℚ) :
    (insertByValueDesc x l).filter (fun h => h.currentValue == v) =
      if x.currentValue = v then
        x :: l.filter (fun h => h.currentValue == v)
      else l.filter (fun h => h.currentValue == v) := by
  induction l with
  | nil =>
    rcases eq_or_ne x.currentValue v with h | h
    · simp [insertByValueDesc, h]
    · simp [insertByValueDesc, h]
  | cons y ys ih =>
    by_cases hc : y.currentValue ≤ x.currentValue
    · rw [insertByValueDesc, if_pos hc]
      rcases eq_or_ne x.currentValue v with h | h
      · simp [List.filter_cons, h]
      · simp [List.filter_cons, h]
    · rw [insertByValueDesc, if_neg hc]
      have hylt : x.currentValue < y.currentValue := lt_of_not_le hc
      rcases eq_or_ne x.currentValue v with h | h
      · have hyne : ¬(y.currentValue = v) := by
          intro hy
          rw [← h] at hy
          exact absurd hy (ne_of_gt hylt)
        rw [if_pos h]
        simp only [List.filter_cons, ih, if_pos h]
        simp [hyne]
      · rw [if_neg h]
        simp only [List.filter_cons, ih, if_neg h]

lemma filter_sortByValueDesc (l : List ETFHoldingMetrics) (v : ℚ) :
    (sortByValueDesc l).filter (fun h => h.currentValue == v) =
      l.filter (fun h => h.currentValue == v) := by
  induction l with
  | nil => simp [sortByValueDesc]
  | cons x t ih =>
    rw [sortByValueDesc, List.foldr_cons]
    rw [show List.foldr insertByValueDesc [] t = sortByValueDesc t from rfl]
    rw [filter_insertByValueDesc, List.filter_cons]
    rcases eq_or_ne x.currentValue v with h | h
    · simp [h, ih]
    · simp [h, ih]

lemma totalCurrentValueOf_groups (priceData : PriceMap)
    (gs : List (String × List Purchase)) (hwf : GroupsWF gs) :
    ∀ init : ℚ,
      gs.foldl
        (fun acc group =>
          match lookupMap priceData group.1 with
          | none => acc
          | some price =>
            acc + (group.2.foldl (fun sum p => sum + p.shares) 0) * price.currentPrice)
        init
        = init + groupSum (currentValueContrib priceData) gs := by
  induction gs with
  | nil => intro init; simp [groupSum]
  | cons g rest ih =>
    have hg : ∀ p ∈ g.2, p.etfSymbol = g.1 := hwf g (by simp)
    have hrest : GroupsWF rest := fun h hh q hq => hwf h (by simp [hh]) q hq
    intro init
    rw [List.foldl_cons]
    rcases hl : lookupMap priceData g.1 with _ | price
    · have hzero : (g.2.map (currentValueContrib priceData)).sum = 0 := by
        have : ∀ p ∈ g.2, currentValueContrib priceData p = 0 := by
          intro p hp
          unfold currentValueContrib
          rw [hg p hp, hl]
        rw [List.map_congr_left this]
        simp
      simp only [hl, ih hrest, groupSum, List.map_cons, List.sum_cons]
      rw [hzero]
      ring
    · have hinner : (g.2.map (currentValueContrib priceData)).sum
          = (g.2.foldl (fun sum p => sum + p.shares) 0) * price.currentPrice := by
        rw [foldl_add_eq (fun p => p.shares) g.2 0, zero_add,
          ← sum_map_mul_const (fun p => p.shares) price.currentPrice g.2]
        congr 1
        refine List.map_congr_left ?_
        intro p hp
        unfold currentValueContrib
        rw [hg p hp, hl]
      simp only [hl, ih hrest, groupSum, List.map_cons, List.sum_cons]
      rw [← hinner]
      ring

lemma totalCurrentValueOf_eq (ps : List Purchase) (priceData : PriceMap) :
    totalCurrentValueOf (groupBySymbol ps) priceData
      = (ps.map (currentValueContrib priceData)).sum := by
  unfold totalCurrentValueOf
  rw [totalCurrentValueOf_groups priceData _ (groupsWF_groupBySymbol ps)]
  simp [groupSum_groupBySymbol]

/-! ### Claim theorems -/

/-- C1: `calculateYTDPerformance` decomposes as the spec's algorithm — the
three accumulators are the sums of the per-purchase contributions (pre-year
purchases contribute `shares*ytdStartPrice` to the year-start value and the
price move to the gain, purchases of the current year contribute their
`totalCost` to the new-investment base and value minus cost to the gain,
purchases without a quote contribute nothing), and
`ytdGainLossPercent = ytdGainLoss / (valueAtYearStart + newInvestmentsThisYear) * 100`,
or 0 when that denominator is not positive. -/
theorem ytd_performance_decomposition (ps : List Purchase)
    (priceData : PriceMap) (yearStartTime : ℤ) :
    ytdAccumulate ps priceData yearStartTime =
      ((ps.map (ytdGainContrib priceData yearStartTime)).sum,
       (ps.map (ytdValueAtStartContrib priceData yearStartTime)).sum,
       (ps.map (ytdNewInvestContrib priceData yearStartTime)).sum) ∧
    calculateYTDPerformance ps priceData yearStartTime =
      { ytdGainLoss := (ps.map (ytdGainContrib priceData yearStartTime)).sum
        ytdGainLossPercent :=
          if 0 < (ps.map (ytdValueAtStartContrib priceData yearStartTime)).sum
              + (ps.map (ytdNewInvestContrib priceData yearStartTime)).sum then
            (ps.map (ytdGainContrib priceData yearStartTime)).sum /
              ((ps.map (ytdValueAtStartContrib priceData yearStartTime)).sum
                + (ps.map (ytdNewInvestContrib priceData yearStartTime)).sum) * 100
          else 0 } := by
  refine ⟨ytdAccumulate_eq ps priceData yearStartTime, ?_⟩
  unfold calculateYTDPerformance
  rw [ytdAccumulate_eq]

/-- C4: `totalInvested` sums `totalCost` over all purchases, quoted or not,
while `currentValue` sums `shares * currentPrice` over the purchases whose
symbol has a quote only (the others contribute 0). -/
theorem portfolio_totals_asymmetry (portfolio : Portfolio) (priceData : PriceMap)
    (yearStartTime today : ℤ) (nowIso : String) :
    (calculatePortfolioMetrics portfolio priceData yearStartTime today nowIso).totalInvested
        = (portfolio.purchases.map (·.totalCost)).sum ∧
    (calculatePortfolioMetrics portfolio priceData yearStartTime today nowIso).currentValue
        = (portfolio.purchases.map (currentValueContrib priceData)).sum := by
  by_cases hps : portfolio.purchases = []
  · constructor <;> simp [calculatePortfolioMetrics, hps]
  · constructor
    · simp only [calculatePortfolioMetrics, if_neg hps]
      rw [foldl_add_eq]
      simp
    · simp only [calculatePortfolioMetrics, if_neg hps]
      rw [totalCurrentValueOf_eq]

/-- C9: an empty purchase list short-circuits to the all-zero metrics with
empty holdings, whatever the quote map contains. -/
theorem empty_portfolio_all_zero (portfolio : Portfolio) (priceData : PriceMap)
    (yearStartTime today : ℤ) (nowIso : String)
    (h : portfolio.purchases = []) :
    calculatePortfolioMetrics portfolio priceData yearStartTime today nowIso =
      { totalInvested := 0
        currentValue := 0
        totalGainLoss := 0
        totalGainLossPercent := 0
        ytdGainLoss := 0
        ytdGainLossPercent := 0
        holdings := []
        lastUpdated := nowIso } := by
  unfold calculatePortfolioMetrics
  rw [if_pos h]

/-- Witness for C9 at a concrete empty portfolio and a non-empty quote map. -/
theorem empty_portfolio_all_zero_witness :
    calculatePortfolioMetrics ⟨"p1", "My Portfolio", [], [], "c", "u", 1⟩
        [("VOO", ⟨"VOO", 420, 418, 2, 1, 500, 300, 5⟩)] 0 0 "now" =
      { totalInvested := 0
        currentValue := 0
        totalGainLoss := 0
        totalGainLossPercent := 0
        ytdGainLoss := 0
        ytdGainLossPercent := 0
        holdings := []
        lastUpdated := "now" } :=
  empty_portfolio_all_zero _ _ 0 0 "now" rfl

/-- C10: the aggregate fields of `calculateETFHoldingMetrics` are consistent
with its own per-purchase drill-down list — total shares, current value,
cost basis and gain/loss each equal the sum of the corresponding
per-purchase fields. -/
theorem etf_holding_consistency (ps : List Purchase) (etfName : String)
    (currentPrice totalPortfolioValue : ℚ) (today : ℤ) (h : ps ≠ []) :
    (calculateETFHoldingMetrics ps etfName currentPrice totalPortfolioValue today).totalShares
        = (((calculateETFHoldingMetrics ps etfName currentPrice totalPortfolioValue today).purchases).map
            (·.shares)).sum ∧
    (calculateETFHoldingMetrics ps etfName currentPrice totalPortfolioValue today).currentValue
        = (((calculateETFHoldingMetrics ps etfName currentPrice totalPortfolioValue today).purchases).map
            (·.currentValue)).sum ∧
    (calculateETFHoldingMetrics ps etfName currentPrice totalPortfolioValue today).totalCostBasis
        = (((calculateETFHoldingMetrics ps etfName currentPrice totalPortfolioValue today).purchases).map
            (·.costBasis)).sum ∧
    (calculateETFHoldingMetrics ps etfName currentPrice totalPortfolioValue today).totalGainLoss
        = (((calculateETFHoldingMetrics ps etfName currentPrice totalPortfolioValue today).purchases).map
            (·.gainLoss)).sum := by
  simp only [calculateETFHoldingMetrics, if_neg h]
  have hshares : (ps.map (fun p => calculatePurchaseMetrics p currentPrice today)).map
      (·.shares) = ps.map (·.shares) := by
    rw [List.map_map]; rfl
  have hcv : (ps.map (fun p => calculatePurchaseMetrics p currentPrice today)).map
      (·.currentValue) = ps.map (fun p => p.shares * currentPrice) := by
    rw [List.map_map]; rfl
  have hcb : (ps.map (fun p => calculatePurchaseMetrics p currentPrice today)).map
      (·.costBasis) = ps.map (·.totalCost) := by
    rw [List.map_map]; rfl
  have hgl : (ps.map (fun p => calculatePurchaseMetrics p currentPrice today)).map
      (·.gainLoss) = ps.map (fun p => p.shares * currentPrice - p.totalCost) := by
    rw [List.map_map]; rfl
  refine ⟨?_, ?_, ?_, ?_⟩
  · rw [hshares, foldl_add_eq]; simp
  · rw [hcv, foldl_add_eq, zero_add, ← sum_map_mul_const Purchase.shares currentPrice ps]
  · rw [hcb, foldl_add_eq]; simp
  · rw [hgl,
      sum_map_sub (fun p : Purchase => p.shares * currentPrice)
        (fun p : Purchase => p.totalCost) ps,
      calculateGainLoss, foldl_add_eq, foldl_add_eq, zero_add, zero_add,
      ← sum_map_mul_const Purchase.shares currentPrice ps]

/-- Witness for C10 at a two-purchase concrete holding. -/
theorem etf_holding_consistency_witness :
    (([⟨"a", "VOO", 0, 10, 100, 1005, 5, none, "c", "u"⟩,
       ⟨"b", "VOO", 86400000, 5, 110, 550, 0, none, "c", "u"⟩] : List Purchase) ≠ []) ∧
    (calculateETFHoldingMetrics
        [⟨"a", "VOO", 0, 10, 100, 1005, 5, none, "c", "u"⟩,
         ⟨"b", "VOO", 86400000, 5, 110, 550, 0, none, "c", "u"⟩]
        "Vanguard" 120 5000 86400000).totalShares
      = (((calculateETFHoldingMetrics
        [⟨"a", "VOO", 0, 10, 100, 1005, 5, none, "c", "u"⟩,
         ⟨"b", "VOO", 86400000, 5, 110, 550, 0, none, "c", "u"⟩]
        "Vanguard" 120 5000 86400000).purchases).map (·.shares)).sum :=
  ⟨by decide, (etf_holding_consistency _ "Vanguard" 120 5000 86400000 (by decide)).1⟩

/-- C6: the holdings of `calculatePortfolioMetrics` are sorted descending by
`currentValue`; the sort is stable (for each value, the holdings of that
value appear exactly in pre-sort order), and the pre-sort holdings list is
in the first-appearance order of the quoted symbols in the input
purchases. -/
theorem holdings_sorted_stable (portfolio : Portfolio) (priceData : PriceMap)
    (yearStartTime today : ℤ) (nowIso : String) :
    ((calculatePortfolioMetrics portfolio priceData yearStartTime today nowIso).holdings).Pairwise
        (fun a b => b.currentValue ≤ a.currentValue) ∧
    (∀ v : ℚ,
      ((calculatePortfolioMetrics portfolio priceData yearStartTime today nowIso).holdings).filter
          (fun h => h.currentValue == v)
        = (buildHoldings (groupBySymbol portfolio.purchases) priceData portfolio.etfCache
            (totalCurrentValueOf (groupBySymbol portfolio.purchases) priceData) today).filter
            (fun h => h.currentValue == v)) ∧
    (buildHoldings (groupBySymbol portfolio.purchases) priceData portfolio.etfCache
        (totalCurrentValueOf (groupBySymbol portfolio.purchases) priceData) today).map
        (·.etfSymbol)
      = (firstOccur (portfolio.purchases.map (·.etfSymbol))).filter
          (fun s => (lookupMap priceData s).isSome) := by
  refine ⟨?_, ?_, ?_⟩
  · by_cases hps : portfolio.purchases = []
    · simp [calculatePortfolioMetrics, hps]
    · simp only [calculatePortfolioMetrics, if_neg hps]
      exact sortByValueDesc_pairwise _
  · intro v
    by_cases hps : portfolio.purchases = []
    · simp [calculatePortfolioMetrics, hps, groupBySymbol, buildHoldings]
    · simp only [calculatePortfolioMetrics, if_neg hps]
      exact filter_sortByValueDesc _ v
  · rw [buildHoldings_symbols _ _ _ _ _ (groupsWF_groupBySymbol _)
      (groupsNE_groupBySymbol _), groupBySymbol_keys]

/-- C2: with positive start value, end value and day count,
`calculateAnnualizedReturn` is `((endValue/startValue)^(365/days) - 1) * 100`;
`startValue ≤ 0` or `days ≤ 0` yields 0; `endValue ≤ 0` (with the others
positive) yields -100 regardless of magnitude. -/
theorem annualized_return_formula (startValue endValue days : ℚ) :
    (0 < startValue → 0 < days → 0 < endValue →
      calculateAnnualizedReturn startValue endValue days =
        (((endValue : ℝ) / (startValue : ℝ)) ^ ((365 : ℝ) / (days : ℝ)) - 1) * 100) ∧
    (startValue ≤ 0 ∨ days ≤ 0 →
      calculateAnnualizedReturn startValue endValue days = 0) ∧
    (0 < startValue → 0 < days → endValue ≤ 0 →
      calculateAnnualizedReturn startValue endValue days = -100) := by
  refine ⟨?_, ?_, ?_⟩
  · intro hs hd he
    unfold calculateAnnualizedReturn
    rw [if_neg (by push_neg; exact ⟨hs, hd⟩), if_neg (not_le.mpr he)]
    have hcast : ((endValue / startValue : ℚ) : ℝ) = (endValue : ℝ) / (startValue : ℝ) := by
      push_cast
      rfl
    rw [hcast, one_div_div]
  · intro h
    unfold calculateAnnualizedReturn
    rw [if_pos h]
  · intro hs hd he
    unfold calculateAnnualizedReturn
    rw [if_neg (by push_neg; exact ⟨hs, hd⟩), if_pos he]

/-- Witness for C2 at the spec's example `annualizedReturn(1000, 1200, 365)`. -/
theorem annualized_return_formula_witness :
    (0 : ℚ) < 1000 ∧ (0 : ℚ) < 365 ∧ (0 : ℚ) < 1200 ∧
    calculateAnnualizedReturn 1000 1200 365 =
      ((((1200 : ℚ) : ℝ) / ((1000 : ℚ) : ℝ)) ^ ((365 : ℝ) / ((365 : ℚ) : ℝ)) - 1) * 100 :=
  ⟨by norm_num, by norm_num, by norm_num,
    (annualized_return_formula 1000 1200 365).1 (by norm_num) (by norm_num) (by norm_num)⟩

/-- C3, failing input: at `startValue = 1`, `endValue = 10`, `days = 1` the
CAGR branch is `(10^365 - 1) * 100`, far above the largest finite IEEE-754
double (≈ 1.7977e308), so JavaScript's `Math.pow` overflows to `Infinity`
and the source — which has no finiteness guard — returns it instead of the
0 the spec requires for a non-finite result. -/
theorem annualized_return_exceeds_double_range :
    (1.7976931348623157e308 : ℝ) < calculateAnnualizedReturn 1 10 1 := by
  unfold calculateAnnualizedReturn
  rw [if_neg (by norm_num), if_neg (by norm_num)]
  have h1 : ((10 / 1 : ℚ) : ℝ) = 10 := by norm_num
  have h2 : (1 : ℝ) / (((1 : ℚ) : ℝ) / 365) = (365 : ℝ) := by norm_num
  rw [h1, h2]
  have h3 : (10 : ℝ) ^ (365 : ℝ) = (10 : ℝ) ^ (365 : ℕ) := by
    rw [← Real.rpow_natCast 10 365]
    norm_num
  rw [h3]
  norm_num

lemma getCurrentCacheTTL_eq_amended (easternDay easternMinutes localDay : ℕ) :
    getCurrentCacheTTL easternDay easternMinutes localDay
      = specCacheTTLAmended easternDay easternMinutes localDay := by
  unfold getCurrentCacheTTL specCacheTTLAmended isMarketOpen CACHE_TTL_MARKET_HOURS
    CACHE_TTL_AFTER_HOURS CACHE_TTL_CLOSED
  by_cases h1 : 1 ≤ easternDay
  · by_cases h2 : easternDay ≤ 5
    · by_cases h3 : 9 * 60 + 30 ≤ easternMinutes
      · by_cases h4 : easternMinutes < 16 * 60
        · simp [h1, h2, h3, h4]
        · simp [h1, h2, h3, h4]
      · simp [h1, h2, h3]
    · simp [h1, h2]
  · simp [h1]

/-- C5 (amended): `getCachedPrice` is absent exactly for never-cached
symbols; otherwise it returns the cached price with
`stale = (now - lastUpdated) > TTL`, where the TTL is 5 minutes when the
US-Eastern time is a weekday inside [09:30, 16:00), otherwise 60 minutes
when the local-timezone weekday is Saturday or Sunday, otherwise 30
minutes; an entry written at time T during market hours is fresh at T+4min
and stale at T+6min; and `isCacheStale` holds exactly for absent-or-stale
entries. -/
theorem cache_staleness_policy_amended (cache : ETFCache) (symbol : String)
    (now : ℤ) (easternDay easternMinutes localDay : ℕ) :
    (getCachedPrice cache symbol now easternDay easternMinutes localDay = none ↔
      lookupMap cache (normalizeSymbol symbol) = none) ∧
    (∀ entry, lookupMap cache (normalizeSymbol symbol) = some entry →
      getCachedPrice cache symbol now easternDay easternMinutes localDay =
        some (entry.currentPrice,
          decide (now - entry.lastUpdated >
            specCacheTTLAmended easternDay easternMinutes localDay))) ∧
    (∀ entry, lookupMap cache (normalizeSymbol symbol) = some entry →
      isMarketOpen easternDay easternMinutes = true →
      getCachedPrice cache symbol (entry.lastUpdated + 4 * 60 * 1000)
          easternDay easternMinutes localDay
          = some (entry.currentPrice, false) ∧
      getCachedPrice cache symbol (entry.lastUpdated + 6 * 60 * 1000)
          easternDay easternMinutes localDay
          = some (entry.currentPrice, true)) ∧
    (isCacheStale cache symbol now easternDay easternMinutes localDay = true ↔
      (lookupMap cache (normalizeSymbol symbol) = none ∨
       ∃ entry, lookupMap cache (normalizeSymbol symbol) = some entry ∧
         now - entry.lastUpdated >
           specCacheTTLAmended easternDay easternMinutes localDay)) := by
  refine ⟨?_, ?_, ?_, ?_⟩
  · unfold getCachedPrice
    rcases hl : lookupMap cache (normalizeSymbol symbol) with _ | entry <;> simp
  · intro entry hl
    unfold getCachedPrice
    rw [hl, getCurrentCacheTTL_eq_amended]
  · intro entry hl hopen
    unfold getCachedPrice
    rw [hl]
    unfold getCurrentCacheTTL
    rw [hopen, if_pos rfl]
    unfold CACHE_TTL_MARKET_HOURS
    constructor
    · have harg : ¬(entry.lastUpdated + 4 * 60 * 1000 - entry.lastUpdated > 5 * 60 * 1000) := by
        omega
      simp [harg]
    · have harg : entry.lastUpdated + 6 * 60 * 1000 - entry.lastUpdated > 5 * 60 * 1000 := by
        omega
      simp [harg]
  · unfold isCacheStale getCachedPrice
    rcases hl : lookupMap cache (normalizeSymbol symbol) with _ | entry
    · simp
    · rw [getCurrentCacheTTL_eq_amended]
      simp

/-- Witness for C5's amended theorem: a cache entry written at t = 1000000
on a Monday (in both the Eastern and local frames) at 10:00 Eastern is
fresh four minutes later and stale six minutes later. -/
theorem cache_staleness_policy_amended_witness :
    getCachedPrice
        [(normalizeSymbol "VOO",
          (⟨⟨"VOO", "Vanguard", none, "USD"⟩, 450, 448, 1000000, 400⟩ : ETFCacheEntry))]
        "VOO" (1000000 + 4 * 60 * 1000) 1 600 1
      = some (450, false) ∧
    getCachedPrice
        [(normalizeSymbol "VOO",
          (⟨⟨"VOO", "Vanguard", none, "USD"⟩, 450, 448, 1000000, 400⟩ : ETFCacheEntry))]
        "VOO" (1000000 + 6 * 60 * 1000) 1 600 1
      = some (450, true) := by
  have hl : lookupMap
      [(normalizeSymbol "VOO",
        (⟨⟨"VOO", "Vanguard", none, "USD"⟩, 450, 448, 1000000, 400⟩ : ETFCacheEntry))]
      (normalizeSymbol "VOO")
      = some (⟨⟨"VOO", "Vanguard", none, "USD"⟩, 450, 448, 1000000, 400⟩ : ETFCacheEntry) := by
    simp [lookupMap, List.find?]
  have h := (cache_staleness_policy_amended
      [(normalizeSymbol "VOO",
        (⟨⟨"VOO", "Vanguard", none, "USD"⟩, 450, 448, 1000000, 400⟩ : ETFCacheEntry))]
      "VOO" 0 1 600 1).2.2.1
      (⟨⟨"VOO", "Vanguard", none, "USD"⟩, 450, 448, 1000000, 400⟩ : ETFCacheEntry)
      hl (by decide)
  exact h

/-- Counterexample for C5 as frozen: at Friday 20:00 US-Eastern (weekday 5,
minute 1200 — an Eastern weekday outside market hours, claimed TTL 30 min)
in a locale whose calendar already reads Saturday (local weekday 6), the
source's weekend branch reads the local weekday and picks the 60-minute
CLOSED TTL, so a 35-minute-old entry is reported fresh (`stale = false`)
although its age exceeds the 30-minute TTL the claim's US-Eastern rule
assigns. -/
theorem cache_ttl_claim_counterexample :
    getCachedPrice
        [(normalizeSymbol "VOO",
          (⟨⟨"VOO", "Vanguard", none, "USD"⟩, 450, 448, 1000000, 400⟩ : ETFCacheEntry))]
        "VOO" (1000000 + 35 * 60 * 1000) 5 (20 * 60) 6
      = some (450, false) ∧
    (35 * 60 * 1000 : ℤ) > specCacheTTL 5 (20 * 60) := by
  constructor
  · have hl : lookupMap
        [(normalizeSymbol "VOO",
          (⟨⟨"VOO", "Vanguard", none, "USD"⟩, 450, 448, 1000000, 400⟩ : ETFCacheEntry))]
        (normalizeSymbol "VOO")
        = some (⟨⟨"VOO", "Vanguard", none, "USD"⟩, 450, 448, 1000000, 400⟩ : ETFCacheEntry) := by
      simp [lookupMap, List.find?]
    unfold getCachedPrice
    rw [hl]
    have httl : getCurrentCacheTTL 5 (20 * 60) 6 = CACHE_TTL_CLOSED := by decide
    rw [httl]
    have harg : ¬((1000000 + 35 * 60 * 1000 : ℤ) - 1000000 > CACHE_TTL_CLOSED) := by
      unfold CACHE_TTL_CLOSED
      omega
    simp [harg]
    unfold CACHE_TTL_CLOSED
    omega
  · decide

lemma mem_mapIdx_or {α : Type} : ∀ (l : List α) (f : ℕ → α → α) (p : α),
    p ∈ l.mapIdx f → ∃ a ∈ l, ∃ i, p = f i a := by
  intro l
  induction l with
  | nil => intro f p h; simp at h
  | cons a t ih =>
    intro f p h
    rw [List.mapIdx_cons] at h
    rcases List.mem_cons.mp h with h | h
    · exact ⟨a, by simp, 0, h⟩
    · rcases ih _ p h with ⟨b, hb, i, hi⟩
      exact ⟨b, by simp [hb], i + 1, hi⟩

/-- C7: every purchase created by `addPurchase` and every purchase rewritten
by `updatePurchase` satisfies `totalCost = shares * pricePerShare + fees`,
recomputed from the merged field values; untouched purchases are carried
over unchanged. -/
theorem totalCost_invariant (portfolio : Portfolio) (data : PurchaseFormData)
    (newId now : String) (id : String) (upd : PurchaseUpdateData)
    (now2 : String) :
    (∀ p ∈ (addPurchase portfolio data newId now).purchases,
      p ∈ portfolio.purchases ∨
        p.totalCost = p.shares * p.pricePerShare + p.fees) ∧
    (∀ portfolio2, updatePurchase portfolio id upd now2 = Except.ok portfolio2 →
      ∀ p ∈ portfolio2.purchases,
        p ∈ portfolio.purchases ∨
          p.totalCost = p.shares * p.pricePerShare + p.fees) ∧
    (∀ q : Purchase,
      (mergePurchase q upd now2).totalCost =
        (mergePurchase q upd now2).shares * (mergePurchase q upd now2).pricePerShare +
          (mergePurchase q upd now2).fees) := by
  refine ⟨?_, ?_, fun q => rfl⟩
  · intro p hp
    unfold addPurchase at hp
    simp only at hp
    rcases List.mem_append.mp hp with h | h
    · exact Or.inl h
    · right
      simp only [List.mem_singleton] at h
      subst h
      rfl
  · intro portfolio2 hupd p hp
    unfold updatePurchase at hupd
    rcases hidx : portfolio.purchases.findIdx? (fun q => q.id == id) with _ | idx
    · rw [hidx] at hupd
      exact absurd hupd (by simp)
    · rw [hidx] at hupd
      simp only [Except.ok.injEq] at hupd
      subst hupd
      simp only at hp
      rcases mem_mapIdx_or _ _ p hp with ⟨a, ha, i, hi⟩
      by_cases hieq : i = idx
      · right
        rw [hi, if_pos hieq]
        rfl
      · left
        rw [hi, if_neg hieq]
        exact ha

/-- Witness for C7: a concrete `addPurchase` whose appended purchase (id
"new", 10 shares at 100 with 5 fees) satisfies the recomputed-cost
invariant, resolved against a portfolio that does not contain it. -/
theorem totalCost_invariant_witness :
    ((⟨"new", "VOO".toUpper.trim, 0, 10, 100, 10 * 100 + 5, 5, none, "t", "t"⟩ : Purchase) ∈
        (⟨"pf", "N", [⟨"x", "VOO", 0, 1, 1, 99, 0, none, "c", "u"⟩], [],
          "c", "u", 1⟩ : Portfolio).purchases) ∨
      (⟨"new", "VOO".toUpper.trim, 0, 10, 100, 10 * 100 + 5, 5, none, "t", "t"⟩ : Purchase).totalCost =
        (⟨"new", "VOO".toUpper.trim, 0, 10, 100, 10 * 100 + 5, 5, none, "t", "t"⟩ : Purchase).shares *
          (⟨"new", "VOO".toUpper.trim, 0, 10, 100, 10 * 100 + 5, 5, none, "t", "t"⟩ : Purchase).pricePerShare +
          (⟨"new", "VOO".toUpper.trim, 0, 10, 100, 10 * 100 + 5, 5, none, "t", "t"⟩ : Purchase).fees :=
  (totalCost_invariant
      ⟨"pf", "N", [⟨"x", "VOO", 0, 1, 1, 99, 0, none, "c", "u"⟩], [], "c", "u", 1⟩
      ⟨"VOO", 0, 10, 100, some 5, none⟩ "new" "t" "x"
      ⟨none, none, none, none, none, none⟩ "t2").1
    ⟨"new", "VOO".toUpper.trim, 0, 10, 100, 10 * 100 + 5, 5, none, "t", "t"⟩
    (List.mem_append_right _ (List.mem_singleton.mpr rfl))

lemma specFieldInvalid_eq_jfieldBad (f : JField) :
    specFieldInvalid f = jfieldBad f := by
  cases f <;> rfl

lemma specNumInvalid_eq_jnumBad (n : JNum) :
    specNumInvalid n = jnumBad n := by
  cases n <;> rfl

lemma validatePurchases_isOk (l : List JPurchase) :
    (validatePurchases l).isOk =
      !(l.any (fun p => jfieldBad p.id || jfieldBad p.etfSymbol ||
          jnumBad p.shares || jnumBad p.pricePerShare)) := by
  induction l with
  | nil => rfl
  | cons p rest ih =>
    by_cases h1 : jfieldBad p.id = true
    · simp [validatePurchases, h1, Except.isOk, Except.toBool]
    · by_cases h2 : jfieldBad p.etfSymbol = true
      · simp [validatePurchases, h1, h2, Except.isOk, Except.toBool]
      · by_cases h3 : jnumBad p.shares = true
        · simp [validatePurchases, h1, h2, h3, Except.isOk, Except.toBool]
        · by_cases h4 : jnumBad p.pricePerShare = true
          · simp [validatePurchases, h1, h2, h3, h4, Except.isOk, Except.toBool]
          · simp [validatePurchases, h1, h2, h3, h4, ih]

/-- C8 (amended): `importPortfolio` accepts exactly the documents whose
`id` and `name` are non-empty strings, whose `purchases` is a list, and
whose purchases all have non-empty string `id` and `etfSymbol` and positive
numeric `shares` and `pricePerShare`; on acceptance the portfolio's
`updatedAt` is set to now, a missing portfolio `createdAt` and missing
purchase timestamps are backfilled with now. -/
theorem import_validation_amended (now : String) (data : JPortfolioDoc) :
    ((importPortfolio now data).isOk = true ↔ specImportRejects data = false) ∧
    (∀ pf, importPortfolio now data = Except.ok pf →
      pf.updatedAt = now ∧
      (data.createdAt = none → pf.createdAt = now) ∧
      (∀ ps0, data.purchases = some ps0 →
        pf.purchases = ps0.map (backfillTimestamps now))) ∧
    (∀ p : JPurchase, p.createdAt = none →
      (backfillTimestamps now p).createdAt = some now) ∧
    (∀ p : JPurchase, p.updatedAt = none →
      (backfillTimestamps now p).updatedAt = some now) := by
  refine ⟨?_, ?_, ?_, ?_⟩
  · have key : (importPortfolio now data).isOk = !(specImportRejects data) := by
      unfold importPortfolio specImportRejects
      rw [specFieldInvalid_eq_jfieldBad data.id, specFieldInvalid_eq_jfieldBad data.name]
      by_cases h1 : jfieldBad data.id = true
      · simp [h1, Except.isOk, Except.toBool]
      · by_cases h2 : jfieldBad data.name = true
        · simp [h1, h2, Except.isOk, Except.toBool]
        · rcases hps : data.purchases with _ | ps0
          · simp [h1, h2, hps, Except.isOk, Except.toBool]
          · have hinner : (fun p : JPurchase => specFieldInvalid p.id ||
                specFieldInvalid p.etfSymbol || specNumInvalid p.shares ||
                specNumInvalid p.pricePerShare)
                = fun p => jfieldBad p.id || jfieldBad p.etfSymbol ||
                    jnumBad p.shares || jnumBad p.pricePerShare := by
              funext p
              rw [specFieldInvalid_eq_jfieldBad, specFieldInvalid_eq_jfieldBad,
                specNumInvalid_eq_jnumBad, specNumInvalid_eq_jnumBad]
            rcases hv : validatePurchases ps0 with e | u
            · have hvany : (ps0.any fun p => jfieldBad p.id || jfieldBad p.etfSymbol ||
                  jnumBad p.shares || jnumBad p.pricePerShare) = true := by
                have h := validatePurchases_isOk ps0
                rw [hv] at h
                simpa [Except.isOk, Except.toBool] using h.symm
              simp [h1, h2, hps, hv, Except.isOk, Except.toBool]
              simpa using List.any_eq_true.mp hvany
            · have hvnone : (ps0.any fun p => jfieldBad p.id || jfieldBad p.etfSymbol ||
                  jnumBad p.shares || jnumBad p.pricePerShare) = false := by
                have h := validatePurchases_isOk ps0
                rw [hv] at h
                simpa [Except.isOk, Except.toBool] using h.symm
              simp [h1, h2, hps, hv, Except.isOk, Except.toBool]
              simpa using List.any_eq_false.mp hvnone
    rw [key]
    rcases specImportRejects data with _ | _ <;> simp
  · intro pf hpf
    by_cases h1 : jfieldBad data.id = true
    · simp [importPortfolio, h1] at hpf
    · by_cases h2 : jfieldBad data.name = true
      · simp [importPortfolio, h1, h2] at hpf
      · rcases hps : data.purchases with _ | ps0
        · simp [importPortfolio, h1, h2, hps] at hpf
        · rcases hv : validatePurchases ps0 with e | u
          · simp [importPortfolio, h1, h2, hps, hv] at hpf
          · simp only [importPortfolio, h1, h2, hps, hv, Bool.not_eq_true,
              Bool.false_eq_true, if_false] at hpf
            simp only [Except.ok.injEq] at hpf
            subst hpf
            refine ⟨rfl, ?_, ?_⟩
            · intro hc
              simp [hc]
            · intro ps1 hps1
              cases hps1
              rfl
  · intro p hp
    simp [backfillTimestamps, hp]
  · intro p hp
    simp [backfillTimestamps, hp]

/-- Witness for C8's amended theorem at a concrete well-formed document:
the import succeeds and the missing timestamps become `"T"`. -/
theorem import_validation_amended_witness :
    (importPortfolio "T"
        ⟨JField.str "i", JField.str "n",
          some [⟨JField.str "a", JField.str "VOO", some "2024-01-15",
            JNum.num 10, JNum.num 100, some 1005, some 5, none, none, none⟩],
          none, none, none, none⟩).isOk = true ∧
    (⟨"i", "n",
      [⟨JField.str "a", JField.str "VOO", some "2024-01-15",
        JNum.num 10, JNum.num 100, some 1005, some 5, none, some "T", some "T"⟩],
      [], "T", "T", 1⟩ : ImportedPortfolio).updatedAt = "T" ∧
    (⟨"i", "n",
      [⟨JField.str "a", JField.str "VOO", some "2024-01-15",
        JNum.num 10, JNum.num 100, some 1005, some 5, none, some "T", some "T"⟩],
      [], "T", "T", 1⟩ : ImportedPortfolio).createdAt = "T" := by
  have h := import_validation_amended "T"
      ⟨JField.str "i", JField.str "n",
        some [⟨JField.str "a", JField.str "VOO", some "2024-01-15",
          JNum.num 10, JNum.num 100, some 1005, some 5, none, none, none⟩],
        none, none, none, none⟩
  have hok : importPortfolio "T"
      ⟨JField.str "i", JField.str "n",
        some [⟨JField.str "a", JField.str "VOO", some "2024-01-15",
          JNum.num 10, JNum.num 100, some 1005, some 5, none, none, none⟩],
        none, none, none, none⟩
      = Except.ok
        ⟨"i", "n",
          [⟨JField.str "a", JField.str "VOO", some "2024-01-15",
            JNum.num 10, JNum.num 100, some 1005, some 5, none, some "T", some "T"⟩],
          [], "T", "T", 1⟩ := by rfl
  have h2 := h.2.1 _ hok
  exact ⟨h.1.mpr (by decide), h2.1, h2.2.1 rfl⟩

/-- Counterexample for C8 as frozen: the document with `id = ""` (present
and a string, so not "missing or not a string") is nevertheless rejected by
`importPortfolio`, because the source's `!data.id` check treats the empty
string as falsy. -/
theorem import_validation_claim_counterexample :
    (importPortfolio "T"
        ⟨JField.str "", JField.str "N", some [], none, none, none, none⟩).isOk
        = false ∧
    claimImportRejects
        ⟨JField.str "", JField.str "N", some [], none, none, none, none⟩
      = false := by
  constructor <;> decide

end Investo
